import Mathlib

/-!
Shallow embedding of the Resource Quota & Asset Lifecycle subsystem of the
saas-platform repository.

The embedding follows the JavaScript source:

* `src/backend/models/User.js` — the `features` counter block of the user
  schema and the methods `canUseFeature`, `incrementFeatureUsage`,
  `hasStorageSpace`, `addStorageUsage`, `removeStorageUsage`.
* `src/backend/models/File.js` — the file schema (status, size, owner,
  `expiresAt`, `parentFile`, `processing` sub-document) and the statics /
  methods `cleanupExpired`, `startProcessing`, `updateProgress`,
  `completeProcessing`.
* `src/backend/controllers/imageController.js` — `uploadImage` and the
  asset/ledger-relevant skeleton of `resizeImage` (derivation flow).
* `src/backend/controllers/videoController.js` — the quota skeleton of
  `textToImage`.
* `src/backend/routes/images.js` — `DELETE /api/images/:id`.
* `src/backend/routes/admin.js` — `DELETE /api/admin/files/:id`.

JavaScript numbers that only ever hold integer byte counts and usage counts
are modelled as `Int`; `Math.max(0, x)` is `max 0 x`.  A JavaScript property
access `obj[name]` that can return `undefined` is modelled as an `Option`;
a `TypeError` thrown by dereferencing `undefined` (and caught by the
controller's `try/catch`, which answers HTTP 500) is the `none` case.
-/

namespace SaasPlatform

/-- One `{used, limit}` counter from the `features` block of the user
schema (`User.js` lines 64-81). -/
structure Counter where
  used : Int
  limit : Int
deriving Repr, DecidableEq

/-- The `features` block of the user schema: exactly the four keys
`imageToText`, `textToImage`, `videoDownloads`, `storage`
(`User.js` lines 64-81). -/
structure Features where
  imageToText : Counter
  textToImage : Counter
  videoDownloads : Counter
  storage : Counter
deriving Repr, DecidableEq

/-- The `role` enum of the user schema: `['user', 'admin', 'premium']`. -/
inductive Role
  | user
  | admin
  | premium
deriving Repr, DecidableEq

/-- The `subscription.type` enum: `['free', 'monthly', 'yearly']`. -/
inductive SubType
  | free
  | monthly
  | yearly
deriving Repr, DecidableEq

/-- The quota-relevant part of a user document. -/
structure User where
  role : Role
  subType : SubType
  features : Features
deriving Repr, DecidableEq

/-- JavaScript property access `features[featureName]` on the `features`
sub-document: defined exactly for the four schema keys, `undefined`
(here `none`) for every other name, in particular for all the hyphenated
names the controllers pass. -/
def featuresLookup (fs : Features) (name : String) : Option Counter :=
  if name = "imageToText" then some fs.imageToText
  else if name = "textToImage" then some fs.textToImage
  else if name = "videoDownloads" then some fs.videoDownloads
  else if name = "storage" then some fs.storage
  else none

/-- `User.js` lines 180-186, `canUseFeature`:
```
if (this.role === 'admin') return true;
if (this.subscription.type === 'free') {
  return this.features[featureName].used < this.features[featureName].limit;
}
return true;
```
For a free-tier user the lookup `this.features[featureName]` may be
`undefined`; dereferencing `.used` then throws a `TypeError`, modelled as
`none`. -/
def canUseFeature (u : User) (name : String) : Option Bool :=
  if u.role = Role.admin then some true
  else if u.subType = SubType.free then
    (featuresLookup u.features name).map (fun c => decide (c.used < c.limit))
  else some true

/-- `User.js` lines 189-193, `incrementFeatureUsage`:
```
if (this.features[featureName]) { this.features[featureName].used += 1; }
```
The guard is JavaScript truthiness of the looked-up object: an object is
truthy, `undefined` is falsy, so unknown names are a silent no-op. -/
def incrementFeatureUsage (u : User) (name : String) : User :=
  if name = "imageToText" then
    { u with features := { u.features with
        imageToText := { u.features.imageToText with
          used := u.features.imageToText.used + 1 } } }
  else if name = "textToImage" then
    { u with features := { u.features with
        textToImage := { u.features.textToImage with
          used := u.features.textToImage.used + 1 } } }
  else if name = "videoDownloads" then
    { u with features := { u.features with
        videoDownloads := { u.features.videoDownloads with
          used := u.features.videoDownloads.used + 1 } } }
  else if name = "storage" then
    { u with features := { u.features with
        storage := { u.features.storage with
          used := u.features.storage.used + 1 } } }
  else u

/-- `User.js` lines 196-199, `hasStorageSpace`. -/
def hasStorageSpace (u : User) (fileSize : Int) : Bool :=
  if u.role = Role.admin then true
  else decide (u.features.storage.used + fileSize ≤ u.features.storage.limit)

/-- `User.js` lines 202-204, `addStorageUsage`:
`this.features.storage.used += fileSize`. -/
def addStorageUsage (u : User) (fileSize : Int) : User :=
  { u with features := { u.features with
      storage := { u.features.storage with
        used := u.features.storage.used + fileSize } } }

/-- `User.js` lines 207-209, `removeStorageUsage`:
`this.features.storage.used = Math.max(0, this.features.storage.used - fileSize)`. -/
def removeStorageUsage (u : User) (fileSize : Int) : User :=
  { u with features := { u.features with
      storage := { u.features.storage with
        used := max 0 (u.features.storage.used - fileSize) } } }

/-- The `status` enum of the file schema:
`['uploading', 'processing', 'completed', 'failed', 'deleted']`. -/
inductive Status
  | uploading
  | processing
  | completed
  | failed
  | deleted
deriving Repr, DecidableEq

/-- The quota/lifecycle-relevant part of a file document (`File.js`).
`kind` embeds the schema's `type` field, `procError` the
`processing.error` field; dates are modelled as integer instants. -/
structure FileRec where
  id : Nat
  user : Nat
  size : Int
  kind : String
  status : Status
  expiresAt : Option Int
  parentFile : Option Nat
  relatedFiles : List Nat
  progress : Int
  procError : Option String
  startedAt : Option Int
  completedAt : Option Int
deriving Repr, DecidableEq

/-- The match condition of `cleanupExpired` (`File.js` lines 216-221):
`{ expiresAt: { $lt: new Date() } }` — strictly less than now, and no
condition at all on `status`.  Documents with a null `expiresAt` do not
match `$lt`. -/
def expiredMatch (now : Int) (f : FileRec) : Bool :=
  match f.expiresAt with
  | some t => decide (t < now)
  | none => false

/-- `File.js` lines 216-221, `cleanupExpired`: an `updateMany` that sets
`{ status: 'deleted' }` on every matched document and touches nothing
else. -/
def cleanupExpired (now : Int) (files : List FileRec) : List FileRec :=
  files.map (fun f =>
    if expiredMatch now f then { f with status := Status.deleted } else f)

/-- `File.js` lines 224-233, `startProcessing`: unconditionally sets
`status = 'processing'` and replaces the whole `processing` sub-document
with `{ feature, progress: 0, startedAt: now, error: null }` (so
`completedAt` falls back to its `null` default). -/
def startProcessing (f : FileRec) (now : Int) : FileRec :=
  { f with status := Status.processing, progress := 0,
           procError := none, startedAt := some now, completedAt := none }

/-- The result of `updateProgressRaw` before the mongoose `save()`
validation (`File.js` lines 236-246):
```
this.processing.progress = progress;
if (error) { this.processing.error = error; this.status = 'failed'; }
else if (progress >= 100) { this.status = 'completed'; this.processing.completedAt = now; }
```
-/
def updateProgressRaw (f : FileRec) (p : Int) (err : Option String) (now : Int) : FileRec :=
  let f1 := { f with progress := p }
  match err with
  | some e => { f1 with procError := some e, status := Status.failed }
  | none =>
    if p ≥ 100 then
      { f1 with status := Status.completed, completedAt := some now }
    else f1

/-- The mongoose `save()` validation relevant here: the schema declares
`processing.progress` with `min: 0, max: 100` (`File.js` lines 74-79), so a
save with an out-of-range progress rejects with a `ValidationError` and
persists nothing. -/
def saveFile (f : FileRec) : Except String FileRec :=
  if 0 ≤ f.progress ∧ f.progress ≤ 100 then Except.ok f
  else Except.error "ValidationError"

/-- `updateProgress` followed by its `return this.save()`. -/
def updateProgress (f : FileRec) (p : Int) (err : Option String) (now : Int) :
    Except String FileRec :=
  saveFile (updateProgressRaw f p err now)

/-- `File.js` lines 249-254, `completeProcessing`:
`status = 'completed'; processing.progress = 100; processing.completedAt = now`
(the subsequent `save()` always validates: progress is exactly 100). -/
def completeProcessing (f : FileRec) (now : Int) : FileRec :=
  { f with status := Status.completed, progress := 100, completedAt := some now }

/-- Outcome of a route handler, as seen by the HTTP caller:
`ok` = 2xx success; `notFound` = 404; `badRequest` = 400; `denied` = 403
"Feature limit exceeded"; `serverError` = 500 (a thrown exception caught
by the handler's `catch`). -/
inductive ApiResult
  | ok
  | notFound
  | badRequest
  | denied
  | serverError
deriving Repr, DecidableEq

/-- The persisted collections the quota/asset subsystem touches: the
`users` collection (quota counters, indexed by account id), the `files`
collection, and a fresh-id supply for newly created file documents. -/
structure SysState where
  users : Nat → User
  files : List FileRec
  nextId : Nat

/-- `File.findById`, keyed on our numeric ids. -/
def findFile (files : List FileRec) (fid : Nat) : Option FileRec :=
  files.find? (fun f => f.id = fid)

/-- Persisting a modification of the document(s) with a given id. -/
def updFile (files : List FileRec) (fid : Nat) (g : FileRec → FileRec) :
    List FileRec :=
  files.map (fun f => if f.id = fid then g f else f)

/-- Update one account's user document. -/
def updUser (users : Nat → User) (uid : Nat) (g : User → User) : Nat → User :=
  fun u => if u = uid then g (users u) else users u

/-- `uploadImage` (`imageController.js` lines 10-87), reduced to its
ledger/registry effect: create a file record with `status: 'completed'`
and the uploaded size, then `req.user.addStorageUsage(size)` and save. -/
def uploadStep (s : SysState) (uid : Nat) (size : Int) (exp : Option Int) :
    SysState :=
  let f : FileRec :=
    { id := s.nextId, user := uid, size := size, kind := "image",
      status := Status.completed, expiresAt := exp, parentFile := none,
      relatedFiles := [], progress := 0, procError := none,
      startedAt := none, completedAt := none }
  { users := updUser s.users uid (fun u => addStorageUsage u size),
    files := s.files ++ [f],
    nextId := s.nextId + 1 }

/-- The derived file record `resizeImage` creates
(`imageController.js` lines 169-187): `status: 'completed'`,
`parentFile: originalFile._id`, owned by the requester. -/
def mkChild (uid fid : Nat) (size : Int) (pid : Nat) : FileRec :=
  { id := fid, user := uid, size := size, kind := "image",
    status := Status.completed, expiresAt := none, parentFile := some pid,
    relatedFiles := [], progress := 0, procError := none,
    startedAt := none, completedAt := none }

/-- `resizeImage` (`imageController.js` lines 92-242), reduced to its
ledger/registry effect, in source order:

1. `File.findById(fileId)`; missing or foreign-owner file → 404 (`notFound`),
   nothing written (lines 104-110);
2. `type !== 'image'` → 400 (lines 112-117);
3. `canUseFeature('image-resize')` — for a free-tier user this throws
   (the name is not a `features` key), the `catch` answers 500; a `false`
   answer is 403 (lines 119-125);
4. `originalFile.startProcessing('resize')` (line 128);
5. the new completed child record is created (lines 169-187);
6. the parent gets the child pushed onto `relatedFiles` and
   `completeProcessing()` (lines 190-191);
7. `addStorageUsage(newSize)` and `incrementFeatureUsage('image-resize')`
   on the requesting user (lines 194-199). -/
def deriveStep (s : SysState) (uid pid : Nat) (size now : Int) :
    SysState × ApiResult :=
  match findFile s.files pid with
  | none => (s, ApiResult.notFound)
  | some parent =>
    if parent.user ≠ uid then (s, ApiResult.notFound)
    else if parent.kind ≠ "image" then (s, ApiResult.badRequest)
    else
      match canUseFeature (s.users uid) "image-resize" with
      | none => (s, ApiResult.serverError)
      | some false => (s, ApiResult.denied)
      | some true =>
        let files1 := updFile s.files pid (fun f => startProcessing f now)
        let files2 := files1 ++ [mkChild uid s.nextId size pid]
        let files3 := updFile files2 pid (fun f =>
          completeProcessing { f with relatedFiles := f.relatedFiles ++ [s.nextId] } now)
        ({ users := updUser s.users uid (fun u =>
              incrementFeatureUsage (addStorageUsage u size) "image-resize"),
           files := files3,
           nextId := s.nextId + 1 },
         ApiResult.ok)

/-- `DELETE /api/images/:id` (`images.js` lines 116-153): missing or
foreign-owner file → 404; otherwise `removeStorageUsage(file.size)` on the
requester, then `findByIdAndDelete` removes the record outright. -/
def userDeleteStep (s : SysState) (uid fid : Nat) : SysState × ApiResult :=
  match findFile s.files fid with
  | none => (s, ApiResult.notFound)
  | some f =>
    if f.user ≠ uid then (s, ApiResult.notFound)
    else
      ({ users := updUser s.users uid (fun u => removeStorageUsage u f.size),
         files := s.files.filter (fun g => g.id ≠ fid),
         nextId := s.nextId },
       ApiResult.ok)

/-- `DELETE /api/admin/files/:id` (`admin.js` lines 276-301): missing
file → 404; otherwise `findByIdAndDelete` removes the record.  No user
counter is touched. -/
def adminDeleteStep (s : SysState) (fid : Nat) : SysState × ApiResult :=
  match findFile s.files fid with
  | none => (s, ApiResult.notFound)
  | some _ =>
    ({ s with files := s.files.filter (fun g => g.id ≠ fid) },
     ApiResult.ok)

/-- The expiry sweep: `File.cleanupExpired()` run at an instant.  It only
issues the one `updateMany`; no user counter is touched. -/
def sweepStep (s : SysState) (now : Int) : SysState :=
  { s with files := cleanupExpired now s.files }

/-- `textToImage` (`videoController.js` lines 596-760), reduced to its
quota skeleton, in source order: missing prompt → 400; then
`canUseFeature('text-to-image')` — throws for a free-tier user (the name
is not a `features` key), caught as 500; `false` → 403; then a missing
API key → 500; on the success path `addStorageUsage(size)` and
`incrementFeatureUsage('text-to-image')` (itself a silent no-op). -/
def textToImageAttempt (u : User) (hasPrompt hasApiKey : Bool) (size : Int) :
    ApiResult × User :=
  if ¬ hasPrompt then (ApiResult.badRequest, u)
  else
    match canUseFeature u "text-to-image" with
    | none => (ApiResult.serverError, u)
    | some false => (ApiResult.denied, u)
    | some true =>
      if ¬ hasApiKey then (ApiResult.serverError, u)
      else (ApiResult.ok, incrementFeatureUsage (addStorageUsage u size) "text-to-image")

/-- States reachable from `s` by any sequence of the modelled operations
(upload, derive, user delete, admin delete, expiry sweep). -/
inductive Reach : SysState → SysState → Prop
  | refl (s : SysState) : Reach s s
  | upload {s t : SysState} (uid : Nat) (size : Int) (exp : Option Int)
      (h : Reach s t) : Reach s (uploadStep t uid size exp)
  | derive {s t : SysState} (uid pid : Nat) (size now : Int)
      (h : Reach s t) : Reach s (deriveStep t uid pid size now).1
  | userDelete {s t : SysState} (uid fid : Nat)
      (h : Reach s t) : Reach s (userDeleteStep t uid fid).1
  | adminDelete {s t : SysState} (fid : Nat)
      (h : Reach s t) : Reach s (adminDeleteStep t fid).1
  | sweep {s t : SysState} (now : Int)
      (h : Reach s t) : Reach s (sweepStep t now)

/-- The storage contribution of one file record to its owner's counter,
per the spec's invariant: its size when the state is `completed` or
`processing`, else nothing. -/
def contrib (uid : Nat) (f : FileRec) : Int :=
  if f.user = uid ∧ (f.status = Status.completed ∨ f.status = Status.processing)
  then f.size else 0

/-- Sum of `size` over the account's files in state completed/processing. -/
def countedSum (uid : Nat) (files : List FileRec) : Int :=
  (files.map (contrib uid)).sum

/-- The spec's storage-accounting invariant: every account's
`features.storage.used` equals the counted sum over its files. -/
def storageInvariant (s : SysState) : Prop :=
  ∀ uid : Nat, (s.users uid).features.storage.used = countedSum uid s.files

/-! ### Concrete fixtures -/

/-- The default counters a fresh free-tier user gets (`User.js` defaults). -/
def zeroCounters : Features :=
  { imageToText := { used := 0, limit := 10 },
    textToImage := { used := 0, limit := 5 },
    videoDownloads := { used := 0, limit := 5 },
    storage := { used := 0, limit := 104857600 } }

/-- A fresh free-tier user. -/
def baseFreeUser : User :=
  { role := Role.user, subType := SubType.free, features := zeroCounters }

/-- A free-tier user whose `textToImage` counter sits at its limit (5 of 5). -/
def freeUserAtLimit : User :=
  { role := Role.user, subType := SubType.free,
    features := { zeroCounters with textToImage := { used := 5, limit := 5 } } }

/-- A paying (monthly) user. -/
def paidUser : User :=
  { role := Role.user, subType := SubType.monthly, features := zeroCounters }

/-- Empty system: no files, every account a fresh free user. -/
def initState : SysState :=
  { users := fun _ => baseFreeUser, files := [], nextId := 0 }

/-- A file document sitting in state `deleted`. -/
def deletedFixture : FileRec :=
  { id := 0, user := 0, size := 10, kind := "image", status := Status.deleted,
    expiresAt := none, parentFile := none, relatedFiles := [], progress := 0,
    procError := none, startedAt := none, completedAt := none }

/-- A file document sitting in state `processing`. -/
def procFixture : FileRec :=
  { id := 3, user := 0, size := 10, kind := "image", status := Status.processing,
    expiresAt := none, parentFile := none, relatedFiles := [], progress := 40,
    procError := none, startedAt := some 1, completedAt := none }

/-- The persisted result of `updateProgress(100)` on `procFixture` at instant 7. -/
def doneFixture : FileRec := updateProgressRaw procFixture 100 none 7

/-! ### C6 — beginProcessing and illegal source states -/

/-- C6 counterexample: `startProcessing` on an asset in state `deleted`
(neither `uploading` nor `completed`) does not fail and does not leave the
asset unchanged — it moves it to `processing`.  This refutes the claim that
such a call fails with `InvalidState` with the state unchanged. -/
theorem c6_counterexample :
    deletedFixture.status ≠ Status.uploading ∧
    deletedFixture.status ≠ Status.completed ∧
    (startProcessing deletedFixture 5).status = Status.processing ∧
    startProcessing deletedFixture 5 ≠ deletedFixture := by decide

/-- C6 (amended): `startProcessing` performs no state check whatsoever: from
every prior state it unconditionally moves the asset to `processing`, resets
progress to 0, clears the error and `completedAt`, and stamps `startedAt`;
identity, owner and size are untouched. -/
theorem c6_amended_startProcessing_unconditional (f : FileRec) (now : Int) :
    (startProcessing f now).status = Status.processing ∧
    (startProcessing f now).progress = 0 ∧
    (startProcessing f now).procError = none ∧
    (startProcessing f now).startedAt = some now ∧
    (startProcessing f now).completedAt = none ∧
    (startProcessing f now).id = f.id ∧
    (startProcessing f now).user = f.user ∧
    (startProcessing f now).size = f.size := by
  simp [startProcessing]

/-! ### C7 — processing → completed sets progress = 100 and completedAt -/

/-- C7: whenever an asset in state `processing` reaches `completed` — via
`completeProcessing`, or via a persisted `updateProgress` call (whose
`save()` validates `0 <= progress <= 100`) — its progress is exactly 100
and `completedAt` is set to the current instant. -/
theorem c7_processing_to_completed (f g : FileRec) (p now : Int)
    (hstat : f.status = Status.processing) :
    ((completeProcessing f now).status = Status.completed ∧
     (completeProcessing f now).progress = 100 ∧
     (completeProcessing f now).completedAt = some now) ∧
    (updateProgress f p none now = Except.ok g → g.status = Status.completed →
      g.progress = 100 ∧ g.completedAt = some now) := by
  refine ⟨by simp [completeProcessing], ?_⟩
  intro hok hdone
  unfold updateProgress updateProgressRaw saveFile at hok
  by_cases hp : p ≥ 100
  · simp only [hp, if_true] at hok
    split at hok
    · rename_i hbound
      cases hok
      dsimp only at hbound ⊢
      exact ⟨by omega, rfl⟩
    · cases hok
  · simp only [hp, if_false] at hok
    split at hok
    · cases hok
      simp at hdone
      rw [hstat] at hdone
      cases hdone
    · cases hok

theorem c7_witness :
    doneFixture.progress = 100 ∧ doneFixture.completedAt = some 7 :=
  (c7_processing_to_completed procFixture doneFixture 100 7 rfl).2 rfl rfl

/-! ### C8 — canUseFeature lookups for controller-supplied names -/

/-- C8 counterexample: for a concrete free-tier user, the lookup
`features["image-resize"]` performed by `canUseFeature` is undefined — the
`features` block has only the camelCase keys — so the used/limit comparison
dereferences a missing entry and throws (modelled by `none`).  This refutes
the claim that the lookup is always defined for controller-supplied names. -/
theorem c8_counterexample :
    freeUserAtLimit.subType = SubType.free ∧
    freeUserAtLimit.role ≠ Role.admin ∧
    featuresLookup freeUserAtLimit.features "image-resize" = none ∧
    canUseFeature freeUserAtLimit "image-resize" = none := by decide

/-- C8 (amended): the `features` lookup is defined exactly for the four
schema keys `imageToText`, `textToImage`, `videoDownloads`, `storage`; for
a free-tier non-admin user, `canUseFeature` throws exactly when the lookup
is undefined — which is the case for every hyphenated name the route
handlers pass, in particular `image-resize`, `text-to-image` and
`background-remove`. -/
theorem c8_amended_lookup_defined_only_for_schema_keys (u : User) (name : String)
    (hrole : u.role ≠ Role.admin) (hfree : u.subType = SubType.free) :
    ((featuresLookup u.features name).isSome ↔
      (name = "imageToText" ∨ name = "textToImage" ∨
       name = "videoDownloads" ∨ name = "storage")) ∧
    (canUseFeature u name = none ↔ featuresLookup u.features name = none) := by
  constructor
  · unfold featuresLookup
    split_ifs <;> simp_all
  · unfold canUseFeature
    simp only [hrole, hfree, if_false, if_true, if_neg, if_pos]
    cases featuresLookup u.features name <;> simp [hrole]

theorem c8_witness :
    ((featuresLookup freeUserAtLimit.features "image-resize").isSome ↔
      ("image-resize" = "imageToText" ∨ "image-resize" = "textToImage" ∨
       "image-resize" = "videoDownloads" ∨ "image-resize" = "storage")) ∧
    (canUseFeature freeUserAtLimit "image-resize" = none ↔
      featuresLookup freeUserAtLimit.features "image-resize" = none) :=
  c8_amended_lookup_defined_only_for_schema_keys freeUserAtLimit "image-resize"
    (by decide) rfl

/-! ### C9 — incrementFeatureUsage on unknown names is a no-op -/

/-- Helper: `incrementFeatureUsage` leaves the user untouched whenever the
name is not one of the four `features` keys. -/
theorem incrementFeatureUsage_unknown (u : User) (name : String)
    (h : featuresLookup u.features name = none) :
    incrementFeatureUsage u name = u := by
  unfold featuresLookup at h
  unfold incrementFeatureUsage
  split_ifs at h ⊢ <;> simp_all

/-- C9: for every feature name that is not a key of the `features` block —
in particular the controller-supplied names `image-resize`,
`image-compress`, `image-quality-enhance` and `background-remove` —
`incrementFeatureUsage` leaves the entire user record unchanged, so those
usage counters never increase. -/
theorem c9_increment_unknown_feature_noop (u : User) (name : String) :
    featuresLookup u.features "image-resize" = none ∧
    featuresLookup u.features "image-compress" = none ∧
    featuresLookup u.features "image-quality-enhance" = none ∧
    featuresLookup u.features "background-remove" = none ∧
    (featuresLookup u.features name = none → incrementFeatureUsage u name = u) :=
  ⟨rfl, rfl, rfl, rfl, incrementFeatureUsage_unknown u name⟩

theorem c9_witness :
    featuresLookup freeUserAtLimit.features "image-resize" = none ∧
    featuresLookup freeUserAtLimit.features "image-compress" = none ∧
    featuresLookup freeUserAtLimit.features "image-quality-enhance" = none ∧
    featuresLookup freeUserAtLimit.features "background-remove" = none ∧
    (featuresLookup freeUserAtLimit.features "image-resize" = none →
      incrementFeatureUsage freeUserAtLimit "image-resize" = freeUserAtLimit) :=
  c9_increment_unknown_feature_noop freeUserAtLimit "image-resize"

/-! ### C10 — removeStorageUsage never drives the counter negative -/

/-- C10: starting from a non-negative storage counter, `removeStorageUsage`
with any `fileSize` leaves the counter non-negative — the subtraction is
clamped at zero by the `Math.max(0, ...)`. -/
theorem c10_remove_storage_clamped (u : User) (fileSize : Int)
    (h : 0 ≤ u.features.storage.used) :
    0 ≤ (removeStorageUsage u fileSize).features.storage.used := by
  simp only [removeStorageUsage]
  exact le_max_left 0 _

theorem c10_witness :
    0 ≤ (removeStorageUsage freeUserAtLimit 12345).features.storage.used :=
  c10_remove_storage_clamped freeUserAtLimit 12345 (by decide)

/-! ### C2 — the sixth text-to-image attempt for a free user at the limit -/

/-- C2 counterexample: at the concrete free-tier user with
`textToImage.used = 5, limit = 5`, a further text-to-image attempt does
leave the counter untouched — but it does not return a Denied result: the
feature-name lookup inside `canUseFeature` is undefined for
`"text-to-image"`, the dereference throws, and the handler answers a 500
server error instead of the 403 Denied. -/
theorem c2_counterexample :
    freeUserAtLimit.features.textToImage.used = 5 ∧
    freeUserAtLimit.features.textToImage.limit = 5 ∧
    (textToImageAttempt freeUserAtLimit true true 1000).1 = ApiResult.serverError ∧
    (textToImageAttempt freeUserAtLimit true true 1000).1 ≠ ApiResult.denied ∧
    (textToImageAttempt freeUserAtLimit true true 1000).2 = freeUserAtLimit := by decide

/-- C2 (amended): for every free-tier non-admin user — whatever the counter
values, in particular at `used = limit` — a text-to-image attempt with a
prompt returns a 500 server error (the `features["text-to-image"]` lookup
is undefined and the dereference throws) and leaves the user record, hence
the counter, unchanged; the clean Denied outcome is unreachable. -/
theorem c2_amended_sixth_attempt (u : User) (k : Bool) (size : Int)
    (hrole : u.role ≠ Role.admin) (hfree : u.subType = SubType.free) :
    textToImageAttempt u true k size = (ApiResult.serverError, u) := by
  unfold textToImageAttempt canUseFeature featuresLookup
  simp [hrole, hfree]

theorem c2_witness :
    textToImageAttempt freeUserAtLimit true true 1000 =
      (ApiResult.serverError, freeUserAtLimit) :=
  c2_amended_sixth_attempt freeUserAtLimit true 1000 (by decide) rfl

/-! ### C3 — what the expiry sweep really does -/

/-- An expired completed file of size 100. -/
def c3f0 : FileRec :=
  { id := 0, user := 0, size := 100, kind := "image", status := Status.completed,
    expiresAt := some 0, parentFile := none, relatedFiles := [], progress := 0,
    procError := none, startedAt := none, completedAt := some 0 }

/-- An expired file still in state `processing`. -/
def c3f1 : FileRec :=
  { id := 1, user := 0, size := 50, kind := "image", status := Status.processing,
    expiresAt := some 0, parentFile := none, relatedFiles := [], progress := 30,
    procError := none, startedAt := some 0, completedAt := none }

/-- A completed file whose `expiresAt` equals the sweep instant. -/
def c3f2 : FileRec :=
  { id := 2, user := 0, size := 25, kind := "image", status := Status.completed,
    expiresAt := some 10, parentFile := none, relatedFiles := [], progress := 0,
    procError := none, startedAt := none, completedAt := some 0 }

/-- The owner of the three files, with a storage counter matching the
counted sum 100 + 50 + 25. -/
def c3User : User :=
  { role := Role.user, subType := SubType.free,
    features := { zeroCounters with
      storage := { used := 175, limit := 104857600 } } }

def c3State : SysState :=
  { users := fun _ => c3User, files := [c3f0, c3f1, c3f2], nextId := 3 }

/-- C3 counterexample: the sweep run at instant 10 on the concrete state
(i) transitions the `processing` file `c3f1` to `deleted` although its
state is not in {completed, failed}, (ii) leaves the completed file `c3f2`
with `expiresAt = 10 <= now` untouched because the query uses a strict
`$lt`, and (iii) issues no storage adjustment at all — the owner's counter
is still 175 although the completed file of size 100 was swept.  Each part
refutes the claim as stated. -/
theorem c3_counterexample :
    c3f1.status = Status.processing ∧
    findFile (sweepStep c3State 10).files 1 = some { c3f1 with status := Status.deleted } ∧
    c3f2.status = Status.completed ∧ c3f2.expiresAt = some 10 ∧
    findFile (sweepStep c3State 10).files 2 = some c3f2 ∧
    ((sweepStep c3State 10).users 0).features.storage.used = 175 := by decide

/-- C3 (amended): the sweep touches no user counter (so it never issues a
storage adjustment), and it rewrites each file record in place: the record
becomes `deleted` exactly when its `expiresAt` is strictly below the sweep
instant — whatever its current state, including `uploading`, `processing`
and `deleted` — and is otherwise unchanged. -/
theorem c3_amended_sweep_characterisation (s : SysState) (now : Int)
    (i : Nat) (hi : i < s.files.length) :
    (sweepStep s now).users = s.users ∧
    (sweepStep s now).nextId = s.nextId ∧
    ∃ hj : i < (sweepStep s now).files.length,
      (sweepStep s now).files.get ⟨i, hj⟩ =
        (if expiredMatch now (s.files.get ⟨i, hi⟩)
         then { s.files.get ⟨i, hi⟩ with status := Status.deleted }
         else s.files.get ⟨i, hi⟩) := by
  refine ⟨rfl, rfl, ?_, ?_⟩
  · simpa [sweepStep, cleanupExpired] using hi
  · simp [sweepStep, cleanupExpired]

theorem c3_amended_witness :
    (sweepStep c3State 10).users = c3State.users ∧
    (sweepStep c3State 10).nextId = c3State.nextId ∧
    ∃ hj : 0 < (sweepStep c3State 10).files.length,
      (sweepStep c3State 10).files.get ⟨0, hj⟩ =
        (if expiredMatch 10 (c3State.files.get ⟨0, by decide⟩)
         then { c3State.files.get ⟨0, by decide⟩ with status := Status.deleted }
         else c3State.files.get ⟨0, by decide⟩) :=
  c3_amended_sweep_characterisation c3State 10 0 (by decide)

/-! ### C4 — deleting the same asset twice -/

/-- Helper: after the route handler's `findByIdAndDelete`, no record with
the deleted id remains, so `findById` misses. -/
theorem findFile_filter_self (files : List FileRec) (fid : Nat) :
    findFile (files.filter (fun g => g.id ≠ fid)) fid = none := by
  unfold findFile
  rw [List.find?_eq_none]
  intro x hx
  have hmem := List.mem_filter.mp hx
  simpa using hmem.2

/-- The single completed file of the C4 scenario, size 100, owned by
account 0. -/
def c4File : FileRec :=
  { id := 1, user := 0, size := 100, kind := "image", status := Status.completed,
    expiresAt := none, parentFile := none, relatedFiles := [], progress := 0,
    procError := none, startedAt := none, completedAt := some 0 }

def c4User : User :=
  { role := Role.user, subType := SubType.free,
    features := { zeroCounters with
      storage := { used := 100, limit := 104857600 } } }

def c4State : SysState :=
  { users := fun _ => c4User, files := [c4File], nextId := 2 }

/-- C4 counterexample: deleting the same asset twice at the concrete state
produces no record in state `deleted` at all (the first call removes the
record outright) and the second call answers 404 NotFound — not a no-op
success.  The storage credit is indeed applied exactly once. -/
theorem c4_counterexample :
    (userDeleteStep c4State 0 1).2 = ApiResult.ok ∧
    ((userDeleteStep c4State 0 1).1.users 0).features.storage.used = 0 ∧
    (userDeleteStep c4State 0 1).1.files = [] ∧
    (userDeleteStep (userDeleteStep c4State 0 1).1 0 1).2 = ApiResult.notFound ∧
    (userDeleteStep (userDeleteStep c4State 0 1).1 0 1).2 ≠ ApiResult.ok := by decide

/-- C4 (amended): when the asset exists and belongs to the caller, the
first delete succeeds, credits the owner exactly once (clamped at zero) and
removes the record — no record ever enters state `deleted`; a second
identical delete finds nothing, changes nothing, and answers NotFound
rather than a no-op success. -/
theorem c4_amended_double_delete (s : SysState) (uid fid : Nat) (f : FileRec)
    (hf : findFile s.files fid = some f) (ho : f.user = uid) :
    (userDeleteStep s uid fid).2 = ApiResult.ok ∧
    ((userDeleteStep s uid fid).1.users uid).features.storage.used
      = max 0 ((s.users uid).features.storage.used - f.size) ∧
    (∀ g ∈ (userDeleteStep s uid fid).1.files, g.id ≠ fid) ∧
    (userDeleteStep (userDeleteStep s uid fid).1 uid fid).1
      = (userDeleteStep s uid fid).1 ∧
    (userDeleteStep (userDeleteStep s uid fid).1 uid fid).2 = ApiResult.notFound := by
  have hstep :
      userDeleteStep s uid fid =
        ({ users := updUser s.users uid (fun u => removeStorageUsage u f.size),
           files := s.files.filter (fun g => g.id ≠ fid),
           nextId := s.nextId }, ApiResult.ok) := by
    unfold userDeleteStep
    rw [hf]
    simp [ho]
  have hnone :
      findFile (s.files.filter (fun g => g.id ≠ fid)) fid = none :=
    findFile_filter_self s.files fid
  refine ⟨by rw [hstep], ?_, ?_, ?_, ?_⟩
  · rw [hstep]
    simp [updUser, removeStorageUsage]
  · rw [hstep]
    intro g hg
    simpa using (List.mem_filter.mp hg).2
  · rw [hstep]
    unfold userDeleteStep
    rw [hnone]
  · rw [hstep]
    unfold userDeleteStep
    rw [hnone]

theorem c4_amended_witness :
    (userDeleteStep c4State 0 1).2 = ApiResult.ok ∧
    ((userDeleteStep c4State 0 1).1.users 0).features.storage.used
      = max 0 ((c4State.users 0).features.storage.used - c4File.size) ∧
    (∀ g ∈ (userDeleteStep c4State 0 1).1.files, g.id ≠ 1) ∧
    (userDeleteStep (userDeleteStep c4State 0 1).1 0 1).1
      = (userDeleteStep c4State 0 1).1 ∧
    (userDeleteStep (userDeleteStep c4State 0 1).1 0 1).2 = ApiResult.notFound :=
  c4_amended_double_delete c4State 0 1 c4File (by decide) rfl

/-! ### C5 — deriving from a deleted or foreign-owner parent -/

/-- A deleted parent asset of size 50, owned by account 0. -/
def c5Parent : FileRec :=
  { id := 0, user := 0, size := 50, kind := "image", status := Status.deleted,
    expiresAt := none, parentFile := none, relatedFiles := [], progress := 0,
    procError := none, startedAt := none, completedAt := some 0 }

/-- State for the C5 scenario: account 0 is a paying user (so the
`canUseFeature` check passes instead of throwing). -/
def c5State : SysState :=
  { users := fun _ => paidUser, files := [c5Parent], nextId := 1 }

/-- C5 counterexample: at the concrete state, deriving (resize) from a
parent in state `deleted` does not fail — it succeeds, creates the new
derived asset record, and even moves the deleted parent to `completed`.
This refutes the claim that a deleted parent yields InvalidParent with no
new record. -/
theorem c5_counterexample :
    c5Parent.status = Status.deleted ∧
    (deriveStep c5State 0 0 30 7).2 = ApiResult.ok ∧
    mkChild 0 1 30 0 ∈ (deriveStep c5State 0 0 30 7).1.files ∧
    (∀ g ∈ (deriveStep c5State 0 0 30 7).1.files, g.id = 0 →
      g.status = Status.completed) := by decide

/-- C5 (amended): a parent owned by a different account is rejected — with
a 404 NotFound, not an InvalidParent — and no record is created (the state
is untouched); but a parent in state `deleted` owned by the caller is
accepted whenever the feature check passes: the call succeeds and the new
derived asset record is created. -/
theorem c5_amended_parent_checks (s : SysState) (uid pid : Nat)
    (size now : Int) (p : FileRec) (hf : findFile s.files pid = some p) :
    (p.user ≠ uid → deriveStep s uid pid size now = (s, ApiResult.notFound)) ∧
    (p.user = uid → p.kind = "image" → p.status = Status.deleted →
     canUseFeature (s.users uid) "image-resize" = some true →
     pid ≠ s.nextId →
      (deriveStep s uid pid size now).2 = ApiResult.ok ∧
      mkChild uid s.nextId size pid ∈ (deriveStep s uid pid size now).1.files) := by
  constructor
  · intro ho
    unfold deriveStep
    rw [hf]
    simp [ho]
  · intro ho hkind _hdel hfeat hpid
    unfold deriveStep
    rw [hf]
    simp only [ho, hkind, hfeat, ne_eq, not_true_eq_false, if_false, ite_false,
      not_false_eq_true, if_true, ite_true]
    refine ⟨by trivial, ?_⟩
    show mkChild uid s.nextId size pid ∈ updFile _ pid _
    unfold updFile
    refine List.mem_map.mpr ⟨mkChild uid s.nextId size pid, ?_, ?_⟩
    · exact List.mem_append.mpr (Or.inr (List.mem_singleton.mpr rfl))
    · have : (mkChild uid s.nextId size pid).id ≠ pid := by
        simp [mkChild]
        omega
      simp [this]

theorem c5_amended_witness :
    (deriveStep c5State 0 0 30 7).2 = ApiResult.ok ∧
    mkChild 0 1 30 0 ∈ (deriveStep c5State 0 0 30 7).1.files :=
  (c5_amended_parent_checks c5State 0 0 30 7 c5Parent (by decide)).2
    rfl rfl rfl (by decide) (by decide)

/-! ### C1 — the storage accounting invariant -/

/-- The state reached from the empty system by one upload of a 100-byte
expiring asset followed by one expiry sweep. -/
def c1Bad : SysState := sweepStep (uploadStep initState 0 100 (some 0)) 1

/-- C1 counterexample: the state `c1Bad` is reachable by a sequence of the
modelled operations (one upload, one sweep), yet account 0 has
`storage.used = 100` while it owns no asset in state completed/processing
— the sweep marked the asset `deleted` without any storage adjustment.
This refutes the claim that the invariant holds at every reachable
state. -/
theorem c1_counterexample : Reach initState c1Bad ∧ ¬ storageInvariant c1Bad := by
  constructor
  · exact Reach.sweep 1 (Reach.upload 0 100 (some 0) (Reach.refl _))
  · intro h
    exact absurd (h 0) (by decide)

theorem countedSum_nil (uid : Nat) : countedSum uid [] = 0 := rfl

theorem countedSum_cons (uid : Nat) (f : FileRec) (l : List FileRec) :
    countedSum uid (f :: l) = contrib uid f + countedSum uid l := by
  simp [countedSum]

theorem countedSum_append (uid : Nat) (a b : List FileRec) :
    countedSum uid (a ++ b) = countedSum uid a + countedSum uid b := by
  simp [countedSum]

theorem countedSum_snoc (uid : Nat) (l : List FileRec) (f : FileRec) :
    countedSum uid (l ++ [f]) = countedSum uid l + contrib uid f := by
  rw [countedSum_append, countedSum_cons, countedSum_nil]
  ring

theorem countedSum_map_congr (uid : Nat) (files : List FileRec)
    (h : FileRec → FileRec)
    (hh : ∀ f ∈ files, contrib uid (h f) = contrib uid f) :
    countedSum uid (files.map h) = countedSum uid files := by
  induction files with
  | nil => rfl
  | cons a l ih =>
    rw [List.map_cons, countedSum_cons, countedSum_cons,
      hh a (by simp), ih (fun f hf => hh f (by simp [hf]))]

theorem contrib_nonneg (uid : Nat) (f : FileRec) (h : 0 ≤ f.size) :
    0 ≤ contrib uid f := by
  unfold contrib
  split
  · exact h
  · exact le_refl 0

theorem countedSum_nonneg (uid : Nat) (files : List FileRec)
    (h : ∀ f ∈ files, 0 ≤ f.size) : 0 ≤ countedSum uid files := by
  induction files with
  | nil => simp [countedSum]
  | cons a l ih =>
    rw [countedSum_cons]
    have ha := contrib_nonneg uid a (h a (by simp))
    have hl := ih (fun f hf => h f (by simp [hf]))
    omega

/-- Two records with the same owner and size, both in a counted state
(completed or processing), contribute the same amount. -/
theorem contrib_eq_of_counted (u : Nat) (f g : FileRec)
    (huser : g.user = f.user) (hsize : g.size = f.size)
    (hf : f.status = Status.completed ∨ f.status = Status.processing)
    (hg : g.status = Status.completed ∨ g.status = Status.processing) :
    contrib u g = contrib u f := by
  unfold contrib
  rw [huser, hsize]
  by_cases hu : f.user = u
  · rcases hf with hf | hf <;> rcases hg with hg | hg <;> simp [hu, hf, hg]
  · simp [hu]

/-- Removing every record with a given id subtracts exactly the found
record's contribution, provided ids are pairwise distinct. -/
theorem countedSum_filter_delete (uid fid : Nat) (files : List FileRec)
    (f : FileRec) (hfind : findFile files fid = some f)
    (hnd : (files.map FileRec.id).Nodup) :
    countedSum uid (files.filter (fun g => g.id ≠ fid))
      = countedSum uid files - contrib uid f := by
  induction files with
  | nil => simp [findFile] at hfind
  | cons a l ih =>
    rw [List.map_cons] at hnd
    have hnd2 := List.nodup_cons.mp hnd
    by_cases ha : a.id = fid
    · have hfa : f = a := by
        unfold findFile at hfind
        rw [List.find?_cons_of_pos _ (by simpa using ha)] at hfind
        exact (Option.some.inj hfind).symm
      have hfl : l.filter (fun g => g.id ≠ fid) = l := by
        rw [List.filter_eq_self]
        intro g hg
        simp only [ne_eq, decide_eq_true_eq]
        intro hgid
        exact hnd2.1 (by
          rw [ha]
          exact List.mem_map.mpr ⟨g, hg, hgid⟩)
      rw [List.filter_cons, if_neg (by simpa using ha), hfl, countedSum_cons, hfa]
      ring
    · have hfind2 : findFile l fid = some f := by
        unfold findFile at hfind ⊢
        rwa [List.find?_cons_of_neg _ (by simpa using ha)] at hfind
      have hrest := ih hfind2 hnd2.2
      rw [List.filter_cons, if_pos (by simpa using ha), countedSum_cons,
        countedSum_cons, hrest]
      ring

/-- Membership in an id-targeted update follows from a property of the
originals and of their updates. -/
theorem forall_mem_updFile (P : FileRec → Prop) (files : List FileRec)
    (fid : Nat) (g : FileRec → FileRec)
    (h1 : ∀ f ∈ files, P f) (h2 : ∀ f ∈ files, P (g f)) :
    ∀ f ∈ updFile files fid g, P f := by
  intro f hf
  unfold updFile at hf
  rcases List.mem_map.mp hf with ⟨x, hx, hfx⟩
  by_cases hid : x.id = fid
  · rw [← hfx]
    simpa [hid] using h2 x hx
  · rw [← hfx]
    simpa [hid] using h1 x hx

/-- An id-preserving targeted update does not change the id multiset. -/
theorem updFile_map_id (files : List FileRec) (fid : Nat)
    (g : FileRec → FileRec) (hg : ∀ f, (g f).id = f.id) :
    (updFile files fid g).map FileRec.id = files.map FileRec.id := by
  unfold updFile
  induction files with
  | nil => rfl
  | cons a l ih =>
    simp only [List.map_cons, ih]
    congr 1
    by_cases h : a.id = fid <;> simp [h, hg]

/-- All file sizes are non-negative. -/
def sizesNonneg (s : SysState) : Prop := ∀ f ∈ s.files, 0 ≤ f.size

/-- Every stored id is below the fresh-id supply. -/
def idsFresh (s : SysState) : Prop := ∀ f ∈ s.files, f.id < s.nextId

/-- Stored ids are pairwise distinct. -/
def idsNodup (s : SysState) : Prop := (s.files.map FileRec.id).Nodup

/-- The inductive invariant: the spec's storage accounting plus the
structural facts the flows guarantee (non-negative sizes, fresh and
distinct ids). -/
def GoodState (s : SysState) : Prop :=
  storageInvariant s ∧ sizesNonneg s ∧ idsFresh s ∧ idsNodup s

/-- The amended reachable set: uploads of non-negative size, derivations
whose parent is in a counted state (completed or processing), and user
deletions of assets in a counted state.  Admin deletion and the expiry
sweep — which adjust no counter — and deletion or derivation of uncounted
assets are exactly the operations excluded. -/
inductive SafeReach : SysState → SysState → Prop
  | refl (s : SysState) : SafeReach s s
  | upload {s t : SysState} (uid : Nat) (size : Int) (exp : Option Int)
      (h : SafeReach s t) (hsz : 0 ≤ size) :
      SafeReach s (uploadStep t uid size exp)
  | derive {s t : SysState} (uid pid : Nat) (size now : Int)
      (h : SafeReach s t) (hsz : 0 ≤ size)
      (hparent : ∀ f ∈ t.files, f.id = pid →
        f.status = Status.completed ∨ f.status = Status.processing) :
      SafeReach s (deriveStep t uid pid size now).1
  | userDelete {s t : SysState} (uid fid : Nat)
      (h : SafeReach s t)
      (hst : ∀ f ∈ t.files, f.id = fid →
        f.status = Status.completed ∨ f.status = Status.processing) :
      SafeReach s (userDeleteStep t uid fid).1

/-- Uploading a non-negative-size asset preserves the accounting
invariant: the new record is counted (completed) and the owner's counter
is incremented by the same amount. -/
theorem uploadStep_good (s : SysState) (uid : Nat) (size : Int)
    (exp : Option Int) (hs : GoodState s) (hsz : 0 ≤ size) :
    GoodState (uploadStep s uid size exp) := by
  obtain ⟨hinv, hnn, hfr, hnd⟩ := hs
  unfold uploadStep
  refine ⟨?_, ?_, ?_, ?_⟩
  · intro u
    show (updUser s.users uid (fun v => addStorageUsage v size) u).features.storage.used
        = countedSum u (s.files ++ [_])
    rw [countedSum_snoc]
    unfold updUser
    by_cases h : u = uid
    · rw [if_pos h, h]
      have hbase := hinv uid
      unfold addStorageUsage contrib
      simp [hbase]
    · rw [if_neg h, hinv u]
      unfold contrib
      have : ¬ (uid = u) := fun hc => h hc.symm
      simp [this]
  · intro f hf
    rcases List.mem_append.mp hf with hf | hf
    · exact hnn f hf
    · rw [List.mem_singleton.mp hf]
      exact hsz
  · intro f hf
    show f.id < s.nextId + 1
    rcases List.mem_append.mp hf with hf | hf
    · exact Nat.lt_succ_of_lt (hfr f hf)
    · rw [List.mem_singleton.mp hf]
      exact Nat.lt_succ_self _
  · show ((s.files ++ [_]).map FileRec.id).Nodup
    rw [List.map_append, List.nodup_append]
    refine ⟨hnd, by simp, ?_⟩
    intro x hx hx2
    rcases List.mem_map.mp hx with ⟨f, hf, hfx⟩
    have hlt : x < s.nextId := hfx ▸ hfr f hf
    have hx3 : x = s.nextId := by simpa using hx2
    omega

/-- Deleting an owned asset in a counted state preserves the accounting
invariant: the record leaves the counted sum and the owner's counter is
credited by the same amount (the clamp at zero never bites because the
remaining counted sum is non-negative). -/
theorem userDeleteStep_good (s : SysState) (uid fid : Nat) (hs : GoodState s)
    (hc : ∀ f ∈ s.files, f.id = fid →
      f.status = Status.completed ∨ f.status = Status.processing) :
    GoodState (userDeleteStep s uid fid).1 := by
  obtain ⟨hinv, hnn, hfr, hnd⟩ := hs
  unfold userDeleteStep
  cases hfind : findFile s.files fid with
  | none => exact ⟨hinv, hnn, hfr, hnd⟩
  | some f =>
    by_cases ho : f.user = uid
    case neg =>
      simp only [ne_eq, ho, not_false_eq_true, if_true, ite_true]
      exact ⟨hinv, hnn, hfr, hnd⟩
    case pos =>
      simp only [ne_eq, ho, not_true_eq_false, if_false, ite_false]
      have hmem : f ∈ s.files := List.mem_of_find?_eq_some hfind
      have hid : f.id = fid := by simpa using List.find?_some hfind
      have hcnt := hc f hmem hid
      refine ⟨?_, ?_, ?_, ?_⟩
      · intro u
        show (updUser s.users uid (fun v => removeStorageUsage v f.size) u).features.storage.used
            = countedSum u (s.files.filter (fun g => g.id ≠ fid))
        unfold updUser
        by_cases h : u = uid
        · rw [if_pos h, h]
          have hdel := countedSum_filter_delete uid fid s.files f hfind hnd
          have hco : contrib uid f = f.size := by
            unfold contrib
            rcases hcnt with hcnt | hcnt <;> simp [ho, hcnt]
          have hpos : 0 ≤ countedSum uid (s.files.filter (fun g => g.id ≠ fid)) :=
            countedSum_nonneg uid _
              (fun g hg => hnn g (List.mem_filter.mp hg).1)
          unfold removeStorageUsage
          dsimp only
          rw [hinv uid, hdel, hco]
          rw [hdel, hco] at hpos
          exact max_eq_right hpos
        · rw [if_neg h]
          have hdel := countedSum_filter_delete u fid s.files f hfind hnd
          have hcz : contrib u f = 0 := by
            unfold contrib
            have hne : ¬ (f.user = u) := by rw [ho]; exact fun hc2 => h hc2.symm
            simp [hne]
          rw [hdel, hcz, hinv u]
          ring
      · intro g hg
        exact hnn g (List.mem_filter.mp hg).1
      · intro g hg
        exact hfr g (List.mem_filter.mp hg).1
      · show ((s.files.filter (fun g => g.id ≠ fid)).map FileRec.id).Nodup
        exact List.Nodup.sublist
          (List.Sublist.map FileRec.id (List.filter_sublist s.files)) hnd

/-- Core of the resize flow preservation: when every record carrying the
parent id is in a counted state, the parent passes through
processing back to completed (same owner, same size — so its contribution
never changes), the new completed child adds exactly its size to the
counted sum, and the owner's counter grows by the same amount
(`incrementFeatureUsage "image-resize"` is a silent no-op). -/
theorem deriveCore_good (s : SysState) (uid pid : Nat) (size now : Int)
    (hs : GoodState s) (hsz : 0 ≤ size) (hpidlt : pid < s.nextId)
    (hp : ∀ f ∈ s.files, f.id = pid →
      f.status = Status.completed ∨ f.status = Status.processing) :
    GoodState
      { users := updUser s.users uid (fun u =>
          incrementFeatureUsage (addStorageUsage u size) "image-resize"),
        files := updFile
          (updFile s.files pid (fun f => startProcessing f now)
            ++ [mkChild uid s.nextId size pid]) pid
          (fun f => completeProcessing
            { f with relatedFiles := f.relatedFiles ++ [s.nextId] } now),
        nextId := s.nextId + 1 } := by
  obtain ⟨hinv, hnn, hfr, hnd⟩ := hs
  have h1 : ∀ u, countedSum u (updFile s.files pid (fun f => startProcessing f now))
      = countedSum u s.files := by
    intro u
    unfold updFile
    apply countedSum_map_congr
    intro f hf
    by_cases hfid : f.id = pid
    · rw [if_pos hfid]
      exact contrib_eq_of_counted u f (startProcessing f now) rfl rfl
        (hp f hf hfid) (Or.inr rfl)
    · rw [if_neg hfid]
  have hmem2 : ∀ f ∈ updFile s.files pid (fun f2 => startProcessing f2 now) ++
      [mkChild uid s.nextId size pid], f.id = pid →
      f.status = Status.completed ∨ f.status = Status.processing := by
    intro f hf hfid
    rcases List.mem_append.mp hf with hf | hf
    · unfold updFile at hf
      rcases List.mem_map.mp hf with ⟨x, hx, hfx⟩
      by_cases hxid : x.id = pid
      · rw [← hfx]
        simp only [hxid, if_pos rfl]
        exact Or.inr rfl
      · rw [← hfx] at hfid
        simp only [hxid, if_neg hxid] at hfid
        exact absurd hfid hxid
    · rw [List.mem_singleton.mp hf] at hfid
      have : s.nextId = pid := hfid
      omega
  have h3 : ∀ u, countedSum u (updFile
      (updFile s.files pid (fun f2 => startProcessing f2 now)
        ++ [mkChild uid s.nextId size pid]) pid
      (fun f => completeProcessing
        { f with relatedFiles := f.relatedFiles ++ [s.nextId] } now))
      = countedSum u (updFile s.files pid (fun f2 => startProcessing f2 now)
        ++ [mkChild uid s.nextId size pid]) := by
    intro u
    unfold updFile
    apply countedSum_map_congr
    intro f hf
    by_cases hfid : f.id = pid
    · rw [if_pos hfid]
      refine contrib_eq_of_counted u f _ rfl rfl ?_ (Or.inl rfl)
      exact hmem2 f hf hfid
    · rw [if_neg hfid]
  have hchild : ∀ u, contrib u (mkChild uid s.nextId size pid)
      = if uid = u then size else 0 := by
    intro u
    unfold contrib mkChild
    by_cases hu : uid = u <;> simp [hu]
  refine ⟨?_, ?_, ?_, ?_⟩
  · intro u
    show (updUser s.users uid
        (fun v => incrementFeatureUsage (addStorageUsage v size) "image-resize") u).features.storage.used
      = countedSum u _
    rw [h3 u, countedSum_snoc, h1 u, hchild u]
    unfold updUser
    by_cases h : u = uid
    · rw [if_pos h, h]
      show (incrementFeatureUsage (addStorageUsage (s.users uid) size)
          "image-resize").features.storage.used = _
      rw [incrementFeatureUsage_unknown (addStorageUsage (s.users uid) size)
        "image-resize" rfl]
      unfold addStorageUsage
      dsimp only
      rw [hinv uid]
      simp
    · rw [if_neg h, hinv u]
      have hne : ¬ (uid = u) := fun hx => h hx.symm
      simp [hne]
  · intro f hf
    have base : ∀ g ∈ updFile s.files pid (fun f2 => startProcessing f2 now) ++
        [mkChild uid s.nextId size pid], 0 ≤ g.size := by
      intro g hg
      rcases List.mem_append.mp hg with hg | hg
      · exact forall_mem_updFile (fun x => 0 ≤ x.size) s.files pid
          (fun f2 => startProcessing f2 now) hnn (fun x hx => hnn x hx) g hg
      · rw [List.mem_singleton.mp hg]
        exact hsz
    exact forall_mem_updFile (fun x => 0 ≤ x.size) _ pid
      (fun f2 => completeProcessing
        { f2 with relatedFiles := f2.relatedFiles ++ [s.nextId] } now)
      base (fun x hx => base x hx) f hf
  · intro f hf
    show f.id < s.nextId + 1
    have base : ∀ g ∈ updFile s.files pid (fun f2 => startProcessing f2 now) ++
        [mkChild uid s.nextId size pid], g.id < s.nextId + 1 := by
      intro g hg
      rcases List.mem_append.mp hg with hg | hg
      · have hbd := forall_mem_updFile (fun x => x.id < s.nextId) s.files pid
          (fun f2 => startProcessing f2 now) hfr (fun x hx => hfr x hx) g hg
        omega
      · rw [List.mem_singleton.mp hg]
        show s.nextId < s.nextId + 1
        omega
    exact forall_mem_updFile (fun x => x.id < s.nextId + 1) _ pid
      (fun f2 => completeProcessing
        { f2 with relatedFiles := f2.relatedFiles ++ [s.nextId] } now)
      base (fun x hx => base x hx) f hf
  · show ((updFile _ pid _).map FileRec.id).Nodup
    rw [updFile_map_id _ pid
        (fun f2 => completeProcessing
          { f2 with relatedFiles := f2.relatedFiles ++ [s.nextId] } now)
        (fun f => rfl),
      List.map_append,
      updFile_map_id s.files pid (fun f2 => startProcessing f2 now) (fun f => rfl)]
    rw [List.nodup_append]
    refine ⟨hnd, by simp, ?_⟩
    intro x hx hx2
    rcases List.mem_map.mp hx with ⟨f, hf2, hfx⟩
    have hlt : x < s.nextId := hfx ▸ hfr f hf2
    have hx3 : x = s.nextId := by simpa [mkChild] using hx2
    omega

/-- The resize flow preserves the inductive invariant whenever the parent
is in a counted state (or the call is rejected before any write). -/
theorem deriveStep_good (s : SysState) (uid pid : Nat) (size now : Int)
    (hs : GoodState s) (hsz : 0 ≤ size)
    (hp : ∀ f ∈ s.files, f.id = pid →
      f.status = Status.completed ∨ f.status = Status.processing) :
    GoodState (deriveStep s uid pid size now).1 := by
  unfold deriveStep
  cases hfind : findFile s.files pid with
  | none => exact hs
  | some parent =>
    by_cases ho : parent.user = uid
    case neg =>
      simp only [ne_eq, ho, not_false_eq_true, if_true, ite_true]
      exact hs
    case pos =>
      by_cases hk : parent.kind = "image"
      case neg =>
        simp only [ne_eq, ho, hk, not_true_eq_false, if_false, ite_false,
          not_false_eq_true, if_true, ite_true]
        exact hs
      case pos =>
        simp only [ne_eq, ho, hk, not_true_eq_false, if_false, ite_false]
        cases hcan : canUseFeature (s.users uid) "image-resize" with
        | none => exact hs
        | some b =>
          cases b with
          | false => exact hs
          | true =>
            have hmem : parent ∈ s.files := List.mem_of_find?_eq_some hfind
            have hid : parent.id = pid := by simpa using List.find?_some hfind
            have hpidlt : pid < s.nextId := hid ▸ hs.2.2.1 parent hmem
            exact deriveCore_good s uid pid size now hs hsz hpidlt hp

/-- Every state safely reachable from a good state is good. -/
theorem safeReach_good {s t : SysState} (hs : GoodState s) (h : SafeReach s t) :
    GoodState t := by
  induction h with
  | refl => exact hs
  | upload uid size exp h hsz ih => exact uploadStep_good _ uid size exp ih hsz
  | derive uid pid size now h hsz hparent ih =>
      exact deriveStep_good _ uid pid size now ih hsz hparent
  | userDelete uid fid h hst ih => exact userDeleteStep_good _ uid fid ih hst

/-- C1 (amended): the storage-accounting invariant does hold at every state
reachable from a good state (for instance the empty system) by uploads,
derivations from a counted (completed/processing) parent, and user
deletions of counted assets — the operations that do adjust the counter.
The operations excluded by the amendment (expiry sweep, admin delete,
derivation from or deletion of an uncounted asset) adjust no counter and
are exactly what `c1_counterexample` exploits. -/
theorem c1_amended_storage_invariant (s t : SysState) (hs : GoodState s)
    (h : SafeReach s t) : storageInvariant t :=
  (safeReach_good hs h).1

theorem c1_amended_witness :
    storageInvariant (uploadStep initState 0 100 none) :=
  c1_amended_storage_invariant initState (uploadStep initState 0 100 none)
    ⟨fun _ => rfl,
     by intro f hf; simp [initState] at hf,
     by intro f hf; simp [initState] at hf,
     by simp [idsNodup, initState]⟩
    (SafeReach.upload 0 100 none (SafeReach.refl initState) (by decide))

end SaasPlatform
